import Mathlib

/-!
Verification of the Prometheus multi-organization manager (`prometheus/app.py`).

The development shallowly embeds the pure core of the program:

* the registry reader `fetch_services` (as a function of the database outcome),
* the change detector `get_services_hash` / `check_for_service_changes`
  (exceptions become `Option.none`, global state becomes explicit
  state passing),
* the body of one cycle of the background loop `monitor_services`,
* the URL resolver `extract_target_from_url` on top of a model of the
  fragment of Python's `urllib.parse.urlparse` that the code reads,
* the config synthesizer `generate_prometheus_config` and the writer
  `write_prometheus_config`,
* the supervisor operation `stop_prometheus`, as a function of the
  sequence of `poll()` results and of which signal deliveries fail.
-/

namespace PromApp

/-- One row of `public.services`, as the dictionary built in `fetch_services`:
`{'service_id': ..., 'metric_url': ..., 'organization_id': ..., 'name': ...}`. -/
structure Service where
  service_id : String
  metric_url : String
  organization_id : String
  name : String
deriving DecidableEq, Repr

/-- The sort key used by `get_services_hash`: the Python tuple
`(s['service_id'], s['metric_url'], s['organization_id'], s['name'])`,
compared lexicographically component by component exactly as Python's
`sorted` compares tuples of strings. -/
abbrev ServiceKey := Lex (String × Lex (String × Lex (String × String)))

def serviceKey (s : Service) : ServiceKey :=
  toLex (s.service_id, toLex (s.metric_url, toLex (s.organization_id, s.name)))

/-- Boolean form of the lexicographic tuple order, handed to `mergeSort`
as the model of Python's `sorted`. -/
def keyLe (a b : ServiceKey) : Bool :=
  decide (a ≤ b)

/-- The value `hashlib.md5(services_str.encode()).hexdigest()` is computed
from the canonical string `str(sorted(tuples))`.  Both `str` and `md5` are
functions of the sorted tuple list and the program only ever compares
fingerprints for equality, so the embedding takes the sorted tuple list
itself as the fingerprint value. -/
abbrev Fingerprint := List ServiceKey

/-- `get_services_hash`: `None` for an empty list (`if not services`),
otherwise the digest of the sorted tuple list. -/
def get_services_hash (services : List Service) : Option Fingerprint :=
  if services.isEmpty then none
  else some ((services.map serviceKey).mergeSort keyLe)

/-- Outcome of one attempt to read the registry.  `connFail` is
`psycopg2.connect` raising (so `get_db_connection` returns `None`),
`queryFail` is the cursor raising inside the `try`, and `rows rs` is a
successful query returning the tuples
`(service_id, metric_url, organization_id, name)`. -/
inductive RegistryOutcome where
  | connFail
  | queryFail
  | rows (rs : List (String × String × String × String))
deriving DecidableEq, Repr

/-- `fetch_services`: returns `[]` when the connection cannot be opened
(`if not conn: return []`), returns `[]` from the `except` branch on a
query failure, and otherwise converts each returned tuple to a dict. -/
def fetch_services (db : RegistryOutcome) : List Service :=
  match db with
  | .connFail => []
  | .queryFail => []
  | .rows rs => rs.map (fun r => ⟨r.1, r.2.1, r.2.2.1, r.2.2.2⟩)

/-- Events recorded while running one cycle of the monitor loop, in
program order: an assignment to the global `last_services_hash`, and a
call to `reload_prometheus()` together with its returned result. -/
inductive MonitorEvent where
  | fingerprintUpdate (f : Option Fingerprint)
  | reloadCall (ok : Bool)
deriving DecidableEq

/-- `check_for_service_changes`, with the global `last_services_hash`
passed in and returned explicitly.  Returns `none` when the function
raises: on a mismatch the log line slices both `last_services_hash[:8]`
and `current_hash[:8]`, and slicing `None` raises `TypeError` before the
global is reassigned.  Otherwise returns the new value of
`last_services_hash`, the change flag, and the assignment events. -/
def check_for_service_changes (last : Option Fingerprint) (services : List Service) :
    Option (Option Fingerprint × Bool × List MonitorEvent) :=
  let current := get_services_hash services
  match last with
  | none => some (current, false, [.fingerprintUpdate current])
  | some l =>
    if current = some l then
      some (some l, false, [])
    else
      match current with
      | none => none
      | some c => some (some c, true, [.fingerprintUpdate (some c)])

/-- Environment of one cycle of `monitor_services`: the services the
registry returns this cycle, whether `prometheus_process` is tracked and
`poll()` reports it alive, and what `reload_prometheus()` would return. -/
structure CycleEnv where
  services : List Service
  prometheusRunning : Bool
  reloadResult : Bool

/-- The body of one iteration of the `while monitoring_active` loop in
`monitor_services`: run `check_for_service_changes`; on a detected change
call `reload_prometheus()` only if the process is tracked and alive; any
exception is caught by the surrounding `try`/`except`, which logs and
leaves the state unchanged.  Returns the new `last_services_hash` and the
event trace of the cycle. -/
def monitor_cycle (last : Option Fingerprint) (env : CycleEnv) :
    Option Fingerprint × List MonitorEvent :=
  match check_for_service_changes last env.services with
  | none => (last, [])
  | some (last2, changed, evs) =>
    if changed then
      if env.prometheusRunning then (last2, evs ++ [.reloadCall env.reloadResult])
      else (last2, evs)
    else (last2, evs)

/-! ### Model of the fragment of `urllib.parse.urlparse` read by the code

`extract_target_from_url` reads `parsed.scheme`, `parsed.hostname` and
`parsed.port`.  The model below follows CPython's `urlsplit`/`_hostinfo`
on that fragment: the scheme is split off at the first `:` when the
candidate is a nonempty ASCII-alphanumeric/`+`/`-`/`.` word starting
with a letter; a netloc is present only after `//` and runs to the first
of `/?#`; userinfo up to the last `@` is dropped; host and port split at
the first `:`; the hostname is lowercased and an empty hostname is
`None`; the `port` property is `None` for a missing or empty port
component, the parsed integer for a decimal port of at most 65535, and
raises `ValueError` otherwise.  (Bracketed IPv6 hosts and the exotic
alternative spellings accepted by Python's `int` are outside the model.) -/

/-- Split a character list at the first occurrence of `c`; `none` when
`c` does not occur. -/
def splitAtFirst (c : Char) : List Char → Option (List Char × List Char)
  | [] => none
  | x :: xs =>
    if x = c then some ([], xs)
    else (splitAtFirst c xs).map (fun p => (x :: p.1, p.2))

/-- The suffix after the last occurrence of `c` (the whole list when `c`
does not occur), as in `netloc.rpartition('@')[2]`. -/
def afterLast (c : Char) (cs : List Char) : List Char :=
  (cs.reverse.takeWhile (fun x => x ≠ c)).reverse

/-- Characters allowed in a URL scheme. -/
def isSchemeChar (c : Char) : Bool :=
  c.isAlphanum || c = '+' || c = '-' || c = '.'

/-- Split `url` into `(scheme, rest)`; the scheme is `""` when no valid
scheme prefix ends at the first `:`. -/
def splitScheme (cs : List Char) : List Char × List Char :=
  match splitAtFirst ':' cs with
  | none => ([], cs)
  | some (pre, post) =>
    match pre with
    | [] => ([], cs)
    | c0 :: rest =>
      if c0.isAlpha && (c0 :: rest).all isSchemeChar then
        ((c0 :: rest).map Char.toLower, post)
      else ([], cs)

/-- The netloc: present only when the remainder after the scheme starts
with `//`, and runs up to the first of `/`, `?`, `#`. -/
def netlocOf (rest : List Char) : List Char :=
  match rest with
  | '/' :: '/' :: tl => tl.takeWhile (fun c => c ≠ '/' && c ≠ '?' && c ≠ '#')
  | _ => []

/-- Decimal digit accumulation, as `int(port, 10)` on a digit string. -/
def digitsToNat (cs : List Char) : Nat :=
  cs.foldl (fun acc c => acc * 10 + (c.toNat - '0'.toNat)) 0

/-- The fields of the parse result that `extract_target_from_url` reads.
`port = .error ()` models the `ValueError` raised by the `port`
property. -/
structure UrlParts where
  scheme : String
  hostname : Option String
  port : Except Unit (Option Nat)

/-- Compute `(hostname, port)` from a netloc, as CPython `_hostinfo` and
the `port` property do. -/
def hostInfo (netloc : List Char) : Option String × Except Unit (Option Nat) :=
  let hostinfo := afterLast '@' netloc
  let (hostPart, portPart) :=
    match splitAtFirst ':' hostinfo with
    | none => (hostinfo, ([] : List Char))
    | some p => p
  let hostname : Option String :=
    if hostPart.isEmpty then none
    else some (String.mk (hostPart.map Char.toLower))
  let port : Except Unit (Option Nat) :=
    if portPart.isEmpty then .ok none
    else if portPart.all Char.isDigit then
      let n := digitsToNat portPart
      if n ≤ 65535 then .ok (some n) else .error ()
    else .error ()
  (hostname, port)

/-- The urlparse model: scheme, hostname and port of a URL string. -/
def urlparse (url : String) : UrlParts :=
  let (scheme, rest) := splitScheme url.data
  let (hostname, port) := hostInfo (netlocOf rest)
  { scheme := String.mk scheme, hostname := hostname, port := port }

/-- Python renders `None` as the string `"None"` inside an f-string. -/
def pyStr (o : Option String) : String :=
  o.getD "None"

/-- `extract_target_from_url`: on a `ValueError` from `parsed.port` the
`except` branch returns the raw input; otherwise `if port:` (Python
truthiness, so a port of `0` counts as absent) formats `host:port`, and
otherwise the scheme defaults apply, with any scheme other than
`https`/`http` returning `parsed.hostname` itself (possibly `None`). -/
def extract_target_from_url (url : String) : Option String :=
  let parsed := urlparse url
  match parsed.port with
  | .error _ => some url
  | .ok portOpt =>
    match portOpt with
    | some p =>
      if p ≠ 0 then some (pyStr parsed.hostname ++ ":" ++ toString p)
      else if parsed.scheme = "https" then some (pyStr parsed.hostname ++ ":443")
      else if parsed.scheme = "http" then some (pyStr parsed.hostname ++ ":80")
      else parsed.hostname
    | none =>
      if parsed.scheme = "https" then some (pyStr parsed.hostname ++ ":443")
      else if parsed.scheme = "http" then some (pyStr parsed.hostname ++ ":80")
      else parsed.hostname

/-! ### Config synthesizer -/

/-- One entry of a job's `static_configs` list.  A target is `Option
String` because `extract_target_from_url` can return Python `None`,
which the code appends to the list as-is; `labels` is absent on the
self-monitoring job. -/
structure StaticConfig where
  targets : List (Option String)
  labels : Option (List (String × String))
deriving DecidableEq, Repr

/-- One entry of `scrape_configs`.  The self-monitoring job dict has no
`scrape_interval`/`metrics_path` keys, hence the `Option`s. -/
structure ScrapeJob where
  job_name : String
  scrape_interval : Option String
  metrics_path : Option String
  static_configs : List StaticConfig
deriving DecidableEq, Repr

/-- The generated configuration dict. -/
structure PromConfig where
  scrape_interval : String
  evaluation_interval : String
  scrape_configs : List ScrapeJob
deriving DecidableEq, Repr

/-- The self-monitoring job appended first:
`{'job_name': 'prometheus', 'static_configs': [{'targets': ['localhost:<port>']}]}`. -/
def selfJob (prometheus_port : Nat) : ScrapeJob :=
  { job_name := "prometheus"
    scrape_interval := none
    metrics_path := none
    static_configs := [{ targets := [some ("localhost:" ++ toString prometheus_port)]
                         labels := none }] }

/-- One step of building the `org_services` dict: a new key is appended
(Python dicts iterate in insertion order), an existing key is reused. -/
def orgStep (acc : List String) (s : Service) : List String :=
  if s.organization_id ∈ acc then acc else acc ++ [s.organization_id]

/-- The keys of the `org_services` dict in iteration order, i.e. the
organizations in first-seen order among the services. -/
def orgOrder (services : List Service) : List String :=
  services.foldl orgStep []

/-- The job built for one organization: the dict value `org_services[org_id]`
is the services of that organization in input order, each mapped through
`extract_target_from_url`. -/
def orgJob (services : List Service) (org_id : String) : ScrapeJob :=
  { job_name := "org_" ++ org_id
    scrape_interval := some "30s"
    metrics_path := some "/metrics"
    static_configs :=
      [{ targets := (services.filter (fun s => s.organization_id = org_id)).map
                      (fun s => extract_target_from_url s.metric_url)
         labels := some [("organization_id", org_id)] }] }

/-- `generate_prometheus_config`, as a function of the fetched services
and of the `PROMETHEUS_PORT` setting: `None` when `not services`,
otherwise the base config with the self-monitoring job followed by one
job per organization in first-seen order. -/
def generate_prometheus_config (prometheus_port : Nat) (services : List Service) :
    Option PromConfig :=
  if services.isEmpty then none
  else some
    { scrape_interval := "15s"
      evaluation_interval := "15s"
      scrape_configs := selfJob prometheus_port :: (orgOrder services).map (orgJob services) }

/-- `write_prometheus_config`, with the on-disk file passed explicitly as
the configuration it currently holds.  When no document is produced the
function returns `False` before any file operation, leaving the file
untouched.  `ioFail` models the `except` branch (e.g. `open`/`yaml.dump`
raising); no theorem below depends on the file contents in that branch. -/
def write_prometheus_config (prometheus_port : Nat) (services : List Service)
    (ioFail : Bool) (disk : Option PromConfig) : Bool × Option PromConfig :=
  match generate_prometheus_config prometheus_port services with
  | none => (false, disk)
  | some c => if ioFail then (false, disk) else (true, some c)

/-! ### Process supervisor: `stop_prometheus`

The embedding abstracts the OS as the sequence of `poll()` results and
the possibility that a `killpg` call raises.  Poll calls are numbered:
call `0` is the entry check `prometheus_process.poll() is None`, calls
`1..` are made by the wait loop and the post-loop escalation check. -/

structure StopEnv where
  /-- Result of the k-th `poll()` call: `true` means still running. -/
  alive : Nat → Bool
  /-- `os.killpg(..., SIGTERM)` raises. -/
  termSignalRaises : Bool
  /-- `os.killpg(..., SIGKILL)` raises. -/
  killSignalRaises : Bool

/-- The wait loop `for _ in range(10): if poll() is not None: break;
time.sleep(1)`, polling from call index `i` with `fuel` iterations left.
Returns the index of the next poll call after the loop and whether an
exit was observed inside the loop. -/
def stop_poll_loop (alive : Nat → Bool) : Nat → Nat → Nat × Bool
  | 0, i => (i, false)
  | fuel + 1, i => if alive i then stop_poll_loop alive fuel (i + 1) else (i + 1, true)

/-- `stop_prometheus`, as a function of whether a process handle is
tracked (`prometheus_process is not None`) and of the environment.
Returns the new tracked-handle state and the returned boolean.  A raise
from either `killpg` is caught by the `except` branch, which returns
`False` without clearing the handle. -/
def stop_prometheus (tracked : Bool) (env : StopEnv) : Bool × Bool :=
  if tracked && env.alive 0 then
    if env.termSignalRaises then (tracked, false)
    else
      let r := stop_poll_loop env.alive 10 1
      if env.alive r.1 then
        if env.killSignalRaises then (tracked, false) else (false, true)
      else (false, true)
  else (tracked, true)

/-! ### Helper lemmas -/

theorem get_services_hash_singleton (s : Service) :
    get_services_hash [s] = some [serviceKey s] := by
  simp [get_services_hash]

theorem get_services_hash_nil : get_services_hash [] = none := rfl

theorem check_mismatch (f1 f2 : Fingerprint) (services : List Service)
    (hne : f2 ≠ f1) (hcur : get_services_hash services = some f2) :
    check_for_service_changes (some f1) services =
      some (some f2, true, [.fingerprintUpdate (some f2)]) := by
  simp only [check_for_service_changes, hcur]
  simp [hne]

/-! #### C1 -/

/-- C1: in every monitor-loop cycle where the newly computed fingerprint
`f2` differs from the stored last fingerprint `f1` (both non-absent), the
cycle records `f2` as the new last fingerprint, the trace starts with the
fingerprint update and contains a reload call exactly when the supervised
process is running, the update preceding any reload — and the resulting
state is `f2` whatever `reload()` returns. -/
theorem monitor_cycle_updates_fingerprint_before_reload
    (f1 f2 : Fingerprint) (env : CycleEnv)
    (hne : f2 ≠ f1) (hcur : get_services_hash env.services = some f2) :
    monitor_cycle (some f1) env =
      (some f2,
        .fingerprintUpdate (some f2) ::
          (if env.prometheusRunning then [.reloadCall env.reloadResult] else [])) := by
  simp only [monitor_cycle, check_mismatch f1 f2 env.services hne hcur]
  cases env.prometheusRunning <;> simp

/-- Witness for C1: a concrete cycle in which the process is running and
the reload fails, yet the stored fingerprint becomes the new one and the
trace is update-then-reload. -/
theorem monitor_cycle_updates_fingerprint_before_reload_witness :
    monitor_cycle (some [serviceKey ⟨"B", "u", "t", "n"⟩])
        ⟨[⟨"A", "u", "t", "n"⟩], true, false⟩ =
      (some [serviceKey ⟨"A", "u", "t", "n"⟩],
        [.fingerprintUpdate (some [serviceKey ⟨"A", "u", "t", "n"⟩]), .reloadCall false]) := by
  have h := monitor_cycle_updates_fingerprint_before_reload
    [serviceKey ⟨"B", "u", "t", "n"⟩] [serviceKey ⟨"A", "u", "t", "n"⟩]
    ⟨[⟨"A", "u", "t", "n"⟩], true, false⟩
    (by simp [serviceKey]) (get_services_hash_singleton _)
  simpa using h

/-! #### C2 -/

/-- C2 counterexample: a connection failure and a query failure are both
reported as the empty service list, the very value returned for a
registry containing zero targets — there is no distinguishable
`RegistryUnavailable` failure. -/
theorem fetch_services_failure_reported_as_empty :
    fetch_services .connFail = ([] : List Service) ∧
    fetch_services .queryFail = ([] : List Service) ∧
    fetch_services .connFail = fetch_services (.rows []) := by
  refine ⟨rfl, rfl, rfl⟩

/-- C2 amended: `fetch_services` never raises; on a connection or query
failure it logs and returns the empty list, indistinguishable from a
registry containing zero targets, and on success it returns one record
per row. -/
theorem fetch_services_never_fails (rs : List (String × String × String × String)) :
    fetch_services .connFail = ([] : List Service) ∧
    fetch_services .queryFail = ([] : List Service) ∧
    fetch_services (.rows rs) = rs.map (fun r => ⟨r.1, r.2.1, r.2.2.1, r.2.2.2⟩) := by
  refine ⟨rfl, rfl, rfl⟩

/-! #### C3 -/

/-- C3: change detection is pure fingerprint equality.  When the stored
fingerprint is absent the result is "no change" for any current target
set (the baseline is recorded); an equal fingerprint yields "no change";
distinct (non-absent) fingerprints yield "change". -/
theorem change_detection_is_fingerprint_equality :
    (∀ services : List Service,
        check_for_service_changes none services =
          some (get_services_hash services, false,
            [.fingerprintUpdate (get_services_hash services)])) ∧
    (∀ (services : List Service) (f : Fingerprint),
        get_services_hash services = some f →
        check_for_service_changes (some f) services = some (some f, false, [])) ∧
    (∀ (services : List Service) (f1 f2 : Fingerprint), f1 ≠ f2 →
        get_services_hash services = some f2 →
        check_for_service_changes (some f1) services =
          some (some f2, true, [.fingerprintUpdate (some f2)])) := by
  refine ⟨fun services => rfl, fun services f hf => ?_, fun services f1 f2 hne hf => ?_⟩
  · simp [check_for_service_changes, hf]
  · exact check_mismatch f1 f2 services (fun h => hne h.symm) hf

/-- Witness for C3: concrete instances of all three cases. -/
theorem change_detection_is_fingerprint_equality_witness :
    check_for_service_changes none [(⟨"A", "u", "t", "n"⟩ : Service)] =
      some (some [serviceKey ⟨"A", "u", "t", "n"⟩], false,
        [.fingerprintUpdate (some [serviceKey ⟨"A", "u", "t", "n"⟩])]) ∧
    check_for_service_changes (some [serviceKey ⟨"A", "u", "t", "n"⟩])
        [(⟨"A", "u", "t", "n"⟩ : Service)] =
      some (some [serviceKey ⟨"A", "u", "t", "n"⟩], false, []) ∧
    check_for_service_changes (some [serviceKey ⟨"B", "u", "t", "n"⟩])
        [(⟨"A", "u", "t", "n"⟩ : Service)] =
      some (some [serviceKey ⟨"A", "u", "t", "n"⟩], true,
        [.fingerprintUpdate (some [serviceKey ⟨"A", "u", "t", "n"⟩])]) := by
  refine ⟨?_, ?_, ?_⟩
  · have h := change_detection_is_fingerprint_equality.1 [⟨"A", "u", "t", "n"⟩]
    simpa [get_services_hash_singleton] using h
  · exact change_detection_is_fingerprint_equality.2.1 _ _ (get_services_hash_singleton _)
  · exact change_detection_is_fingerprint_equality.2.2 _ _ _ (by simp [serviceKey])
      (get_services_hash_singleton _)

/-! #### C10 -/

/-- C10: the fingerprint of an empty target set is `None`; with any
non-absent stored fingerprint, `check_for_service_changes` on an empty
current target set raises (`None[:8]` in the log line) instead of
returning, and the enclosing monitor cycle — whose `except` swallows the
error — leaves the stored fingerprint unchanged and records no events,
so a non-empty-to-empty registry transition is never recorded as a
change. -/
theorem empty_target_set_check_raises (l : Fingerprint) :
    get_services_hash [] = none ∧
    check_for_service_changes (some l) [] = none ∧
    (∀ env : CycleEnv, env.services = [] →
        monitor_cycle (some l) env = (some l, [])) := by
  refine ⟨rfl, rfl, fun env henv => ?_⟩
  simp [monitor_cycle, henv, check_for_service_changes, get_services_hash]

/-- Witness for C10 at a concrete stored fingerprint and environment. -/
theorem empty_target_set_check_raises_witness :
    check_for_service_changes (some [serviceKey ⟨"A", "u", "t", "n"⟩]) [] = none ∧
    monitor_cycle (some [serviceKey ⟨"A", "u", "t", "n"⟩]) ⟨[], true, true⟩ =
      (some [serviceKey ⟨"A", "u", "t", "n"⟩], []) :=
  ⟨(empty_target_set_check_raises _).2.1,
    (empty_target_set_check_raises _).2.2 ⟨[], true, true⟩ rfl⟩

/-! #### C4 -/

theorem keyLe_trans : ∀ a b c : ServiceKey, keyLe a b → keyLe b c → keyLe a c := by
  intro a b c hab hbc
  simp only [keyLe, decide_eq_true_eq] at hab hbc ⊢
  exact le_trans hab hbc

theorem keyLe_total : ∀ a b : ServiceKey, keyLe a b || keyLe b a := by
  intro a b
  simp only [keyLe, Bool.or_eq_true, decide_eq_true_eq]
  exact le_total a b

theorem sorted_mergeSort_keyLe (l : List ServiceKey) :
    (l.mergeSort keyLe).Sorted (fun a b : ServiceKey => a ≤ b) := by
  have h := List.sorted_mergeSort keyLe_trans keyLe_total l
  exact h.imp (fun hab => by simpa [keyLe] using hab)

theorem mergeSort_keyLe_eq_of_perm {l1 l2 : List ServiceKey} (h : l1.Perm l2) :
    l1.mergeSort keyLe = l2.mergeSort keyLe := by
  haveI : IsAntisymm ServiceKey (fun a b : ServiceKey => a ≤ b) :=
    ⟨fun a b => le_antisymm⟩
  exact List.eq_of_perm_of_sorted
    ((List.mergeSort_perm l1 keyLe).trans (h.trans (List.mergeSort_perm l2 keyLe).symm))
    (sorted_mergeSort_keyLe l1) (sorted_mergeSort_keyLe l2)

/-- C4: the fingerprint is order-independent — any two service lists with
the same multiset of `(service_id, metric_url, organization_id, name)`
tuples have equal fingerprints. -/
theorem get_services_hash_order_independent (t1 t2 : List Service)
    (h : (t1.map serviceKey).Perm (t2.map serviceKey)) :
    get_services_hash t1 = get_services_hash t2 := by
  have hlen : t1.length = t2.length := by
    have hl := h.length_eq
    simpa using hl
  have he : t1.isEmpty = t2.isEmpty := by
    cases t1 <;> cases t2 <;> simp_all
  rw [get_services_hash, get_services_hash, he]
  by_cases h2 : t2.isEmpty = true
  · simp [h2]
  · simp only [h2, Bool.false_eq_true, if_false]
    rw [mergeSort_keyLe_eq_of_perm h]

/-- Witness for C4: two concrete two-service lists in swapped order have
the same fingerprint. -/
theorem get_services_hash_order_independent_witness :
    get_services_hash
        [⟨"A", "u1", "t1", "n1"⟩, ⟨"B", "u2", "t2", "n2"⟩] =
      get_services_hash
        [⟨"B", "u2", "t2", "n2"⟩, ⟨"A", "u1", "t1", "n1"⟩] :=
  get_services_hash_order_independent _ _ (List.Perm.swap _ _ _)

/-! #### C7 -/

/-- C7: an empty target set synthesizes no document and the config write
returns failure before touching the file, leaving the on-disk
configuration unchanged; every non-empty target set synthesizes a
document. -/
theorem write_config_skips_empty (p : Nat) (io : Bool) (disk : Option PromConfig) :
    generate_prometheus_config p [] = none ∧
    write_prometheus_config p [] io disk = (false, disk) ∧
    (∀ services : List Service, services ≠ [] →
      ∃ c, generate_prometheus_config p services = some c) := by
  refine ⟨rfl, rfl, fun services hne => ?_⟩
  have hemp : services.isEmpty = false := by
    cases services with
    | nil => exact absurd rfl hne
    | cons a t => rfl
  exact ⟨_, by rw [generate_prometheus_config, hemp]; rfl⟩

/-- Witness for C7 at a concrete port, disk state and non-empty set. -/
theorem write_config_skips_empty_witness :
    write_prometheus_config 9090 [] false (some (⟨"15s", "15s", []⟩ : PromConfig)) =
      (false, some (⟨"15s", "15s", []⟩ : PromConfig)) ∧
    ∃ c, generate_prometheus_config 9090 [⟨"A", "u", "t", "n"⟩] = some c :=
  ⟨(write_config_skips_empty 9090 false _).2.1,
   (write_config_skips_empty 9090 false none).2.2 _ (by simp)⟩

/-! #### C8 -/

theorem stop_poll_loop_fst_le (alive : Nat → Bool) :
    ∀ fuel i : Nat, (stop_poll_loop alive fuel i).1 ≤ i + fuel := by
  intro fuel
  induction fuel with
  | zero => intro i; simp [stop_poll_loop]
  | succ n ih =>
    intro i
    rw [stop_poll_loop]
    split
    · exact le_trans (ih (i + 1)) (by omega)
    · simp

/-- C8: `stop()` on an absent supervisor (no tracked handle, or a tracked
handle whose first poll reports it already exited) is a successful no-op;
the wait loop makes at most 10 polls before the escalation decision
(poll indices 1..10, so the escalation check is poll 11 at the latest);
and — once the graceful group signal has been delivered — the tracked
handle is cleared and success returned both when exit is observed at the
escalation check and when the forced kill signal is sent, i.e. whatever
the process does after the graceful signal. -/
theorem stop_prometheus_escalation_and_cleanup (env : StopEnv) :
    stop_prometheus false env = (false, true) ∧
    (env.alive 0 = false → stop_prometheus true env = (true, true)) ∧
    (stop_poll_loop env.alive 10 1).1 ≤ 11 ∧
    (env.alive 0 = true → env.termSignalRaises = false →
      ((env.alive (stop_poll_loop env.alive 10 1).1 = false →
          stop_prometheus true env = (false, true)) ∧
       (env.alive (stop_poll_loop env.alive 10 1).1 = true →
          env.killSignalRaises = false →
          stop_prometheus true env = (false, true)))) := by
  refine ⟨by simp [stop_prometheus], fun h0 => by simp [stop_prometheus, h0],
    by simpa using stop_poll_loop_fst_le env.alive 10 1, fun h0 hterm => ⟨?_, ?_⟩⟩
  · intro hdead
    simp [stop_prometheus, h0, hterm, hdead]
  · intro halive hkill
    simp [stop_prometheus, h0, hterm, halive, hkill]

/-- Witness for C8: a process that exits at the third poll — the handle
is cleared and `stop` succeeds; the absent case is a no-op. -/
theorem stop_prometheus_escalation_and_cleanup_witness :
    stop_prometheus false ⟨fun k => decide (k < 2), false, false⟩ = (false, true) ∧
    stop_prometheus true ⟨fun k => decide (k < 2), false, false⟩ = (false, true) :=
  ⟨(stop_prometheus_escalation_and_cleanup _).1,
   ((stop_prometheus_escalation_and_cleanup ⟨fun k => decide (k < 2), false, false⟩).2.2.2
      rfl rfl).1 (by decide)⟩

/-! #### C5 -/

theorem mem_foldl_orgStep (l : List Service) :
    ∀ acc : List String, ∀ x ∈ acc, x ∈ l.foldl orgStep acc := by
  induction l with
  | nil => intro acc x hx; simpa using hx
  | cons s t ih =>
    intro acc x hx
    simp only [List.foldl_cons]
    apply ih
    rw [orgStep]
    split
    · exact hx
    · exact List.mem_append_left _ hx

theorem self_mem_foldl_orgStep (l : List Service) :
    ∀ acc : List String, ∀ s ∈ l, s.organization_id ∈ l.foldl orgStep acc := by
  induction l with
  | nil => intro acc s hs; simp at hs
  | cons a t ih =>
    intro acc s hs
    simp only [List.foldl_cons]
    rcases List.mem_cons.mp hs with h | h
    · subst h
      apply mem_foldl_orgStep
      rw [orgStep]
      split
      · assumption
      · exact List.mem_append_right _ (by simp)
    · exact ih _ s h

theorem nodup_foldl_orgStep (l : List Service) :
    ∀ acc : List String, acc.Nodup → (l.foldl orgStep acc).Nodup := by
  induction l with
  | nil => intro acc h; simpa using h
  | cons s t ih =>
    intro acc h
    simp only [List.foldl_cons]
    apply ih
    rw [orgStep]
    split
    · exact h
    · next hmem =>
      refine List.Nodup.append h (List.nodup_singleton _) ?_
      intro a ha hb
      rw [List.mem_singleton] at hb
      subst hb
      exact hmem ha

theorem mem_of_mem_foldl_orgStep (l : List Service) :
    ∀ (acc : List String) (o : String), o ∈ l.foldl orgStep acc →
      o ∈ acc ∨ ∃ s ∈ l, s.organization_id = o := by
  induction l with
  | nil => intro acc o h; exact Or.inl (by simpa using h)
  | cons a t ih =>
    intro acc o h
    simp only [List.foldl_cons] at h
    rcases ih _ o h with h2 | ⟨s, hs, hso⟩
    · rw [orgStep] at h2
      split at h2
      · exact Or.inl h2
      · rcases List.mem_append.mp h2 with h3 | h3
        · exact Or.inl h3
        · rw [List.mem_singleton] at h3
          exact Or.inr ⟨a, by simp, h3.symm⟩
    · exact Or.inr ⟨s, by simp [hs], hso⟩

theorem orgOrder_nodup (l : List Service) : (orgOrder l).Nodup :=
  nodup_foldl_orgStep l [] (List.nodup_nil)

theorem mem_orgOrder_of_mem (l : List Service) (s : Service) (hs : s ∈ l) :
    s.organization_id ∈ orgOrder l :=
  self_mem_foldl_orgStep l [] s hs

theorem exists_of_mem_orgOrder (l : List Service) (o : String) (h : o ∈ orgOrder l) :
    ∃ s ∈ l, s.organization_id = o := by
  rcases mem_of_mem_foldl_orgStep l [] o h with h2 | h2
  · simp at h2
  · exact h2

/-- C5: for every non-empty target set the synthesized document has the
self-monitoring job first (single static target `localhost:<port>`),
followed by exactly one job per distinct organization — each named
`org_<tenant>`, each with one static-config group whose targets are the
tenant's resolved addresses and whose labels carry `organization_id` —
and the three-target scenario yields the three jobs of the claim. -/
theorem generate_config_structure (p : Nat) (services : List Service)
    (hne : services ≠ []) :
    (∃ cfg, generate_prometheus_config p services = some cfg ∧
      cfg.scrape_configs = selfJob p :: (orgOrder services).map (orgJob services) ∧
      selfJob p =
        ⟨"prometheus", none, none, [⟨[some ("localhost:" ++ toString p)], none⟩]⟩ ∧
      (orgOrder services).Nodup ∧
      (∀ s ∈ services, s.organization_id ∈ orgOrder services) ∧
      (∀ o ∈ orgOrder services, (∃ s ∈ services, s.organization_id = o) ∧
        (orgJob services o).job_name = "org_" ++ o ∧
        (orgJob services o).static_configs =
          [{ targets := (services.filter (fun s => s.organization_id = o)).map
                          (fun s => extract_target_from_url s.metric_url),
             labels := some [("organization_id", o)] }])) ∧
    generate_prometheus_config 9090
        [⟨"A", "https://a.com/m", "t1", "sA"⟩,
         ⟨"B", "http://b.com:81/m", "t1", "sB"⟩,
         ⟨"C", "https://c.com/m", "t2", "sC"⟩] =
      some ⟨"15s", "15s",
        [selfJob 9090,
         { job_name := "org_t1", scrape_interval := some "30s",
           metrics_path := some "/metrics",
           static_configs := [{ targets := [some "a.com:443", some "b.com:81"],
                                labels := some [("organization_id", "t1")] }] },
         { job_name := "org_t2", scrape_interval := some "30s",
           metrics_path := some "/metrics",
           static_configs := [{ targets := [some "c.com:443"],
                                labels := some [("organization_id", "t2")] }] }]⟩ := by
  have hemp : services.isEmpty = false := by
    cases services with
    | nil => exact absurd rfl hne
    | cons a t => rfl
  refine ⟨⟨⟨"15s", "15s", selfJob p :: (orgOrder services).map (orgJob services)⟩,
    by rw [generate_prometheus_config, hemp]; rfl, rfl, rfl,
    orgOrder_nodup services, fun s hs => mem_orgOrder_of_mem services s hs,
    fun o ho => ⟨exists_of_mem_orgOrder services o ho, rfl, rfl⟩⟩, by decide⟩

/-- Witness for C5: the scenario instance, obtained from the theorem at
the scenario's (non-empty) target list. -/
theorem generate_config_structure_witness :
    generate_prometheus_config 9090
        [⟨"A", "https://a.com/m", "t1", "sA"⟩,
         ⟨"B", "http://b.com:81/m", "t1", "sB"⟩,
         ⟨"C", "https://c.com/m", "t2", "sC"⟩] =
      some ⟨"15s", "15s",
        [selfJob 9090,
         { job_name := "org_t1", scrape_interval := some "30s",
           metrics_path := some "/metrics",
           static_configs := [{ targets := [some "a.com:443", some "b.com:81"],
                                labels := some [("organization_id", "t1")] }] },
         { job_name := "org_t2", scrape_interval := some "30s",
           metrics_path := some "/metrics",
           static_configs := [{ targets := [some "c.com:443"],
                                labels := some [("organization_id", "t2")] }] }]⟩ :=
  (generate_config_structure 9090 [⟨"A", "https://a.com/m", "t1", "sA"⟩,
      ⟨"B", "http://b.com:81/m", "t1", "sB"⟩,
      ⟨"C", "https://c.com/m", "t2", "sC"⟩] (by simp)).2

/-! #### C6 -/

/-- Two lists that are permutations of each other, are both sorted by a
relation `r`, and on whose members `r` is antisymmetric, are equal. -/
theorem eq_of_perm_of_pairwise {α : Type} {r : α → α → Prop} :
    ∀ l1 l2 : List α, l1.Perm l2 → l1.Pairwise r → l2.Pairwise r →
      (∀ a ∈ l1, ∀ b ∈ l1, r a b → r b a → a = b) → l1 = l2 := by
  intro l1
  induction l1 with
  | nil =>
    intro l2 hp _ _ _
    exact hp.nil_eq
  | cons a t ih =>
    intro l2 hp h1 h2 hanti
    cases l2 with
    | nil =>
      have := hp.length_eq
      simp at this
    | cons b t2 =>
      obtain ⟨hab, h1tl⟩ := List.pairwise_cons.mp h1
      obtain ⟨hbt2, h2tl⟩ := List.pairwise_cons.mp h2
      have heq : a = b := by
        by_cases hcase : a = b
        · exact hcase
        · have hamem : a ∈ t2 := by
            have := hp.subset (List.mem_cons_self a t)
            rcases List.mem_cons.mp this with h | h
            · exact absurd h hcase
            · exact h
          have hbmem : b ∈ t := by
            have := hp.symm.subset (List.mem_cons_self b t2)
            rcases List.mem_cons.mp this with h | h
            · exact absurd h.symm hcase
            · exact h
          exact hanti a (List.mem_cons_self a t) b (List.mem_cons_of_mem a hbmem)
            (hab b hbmem) (hbt2 a hamem)
      subst heq
      have htl : t = t2 :=
        ih t2 hp.cons_inv h1tl h2tl
          (fun x hx y hy => hanti x (List.mem_cons_of_mem a hx) y (List.mem_cons_of_mem a hy))
      rw [htl]

/-- The key of `fetch_services`'s SQL `ORDER BY organization_id,
service_id`, compared lexicographically. -/
def fetchKey (s : Service) : Lex (String × String) :=
  toLex (s.organization_id, s.service_id)

/-- The ordering guaranteed on the list returned by `fetch_services`. -/
def fetchLe (a b : Service) : Prop :=
  fetchKey a ≤ fetchKey b

/-- C6: under the ordering `fetch_services` guarantees (`ORDER BY
organization_id, service_id`) and with `service_id` the unique identity
of a target, the synthesized document is a function of the target set
alone — two orderings of the same set that both satisfy the SQL ordering
produce the identical document — and within each tenant job, the
services whose resolved addresses form the job's target list appear
sorted by `(organization_id, service_id)`. -/
theorem generate_config_order_stable (p : Nat) (l1 l2 : List Service)
    (hperm : l1.Perm l2)
    (hs1 : l1.Pairwise fetchLe) (hs2 : l2.Pairwise fetchLe)
    (hid : ∀ a ∈ l1, ∀ b ∈ l1, a.service_id = b.service_id → a = b) :
    generate_prometheus_config p l1 = generate_prometheus_config p l2 ∧
    (∀ o : String, (l1.filter (fun s => s.organization_id = o)).Pairwise fetchLe) := by
  have hanti : ∀ a ∈ l1, ∀ b ∈ l1, fetchLe a b → fetchLe b a → a = b := by
    intro a ha b hb hab hba
    have h := le_antisymm hab hba
    have h2 : (a.organization_id, a.service_id) = (b.organization_id, b.service_id) := by
      simpa [fetchKey] using h
    exact hid a ha b hb (congrArg Prod.snd h2)
  have hl : l1 = l2 := eq_of_perm_of_pairwise l1 l2 hperm hs1 hs2 hanti
  exact ⟨by rw [hl], fun o => hs1.filter _⟩

/-- Witness for C6 at a concrete ordered two-service list (compared with
itself, as the theorem forces any two ordered arrangements to coincide). -/
theorem generate_config_order_stable_witness :
    generate_prometheus_config 9090
        [⟨"A", "https://a.com/m", "t1", "sA"⟩, ⟨"B", "http://b.com:81/m", "t2", "sB"⟩] =
      generate_prometheus_config 9090
        [⟨"A", "https://a.com/m", "t1", "sA"⟩, ⟨"B", "http://b.com:81/m", "t2", "sB"⟩] ∧
    (∀ o : String,
      (([⟨"A", "https://a.com/m", "t1", "sA"⟩,
         ⟨"B", "http://b.com:81/m", "t2", "sB"⟩] : List Service).filter
          (fun s => s.organization_id = o)).Pairwise fetchLe) := by
  have hsorted : ([⟨"A", "https://a.com/m", "t1", "sA"⟩,
      ⟨"B", "http://b.com:81/m", "t2", "sB"⟩] : List Service).Pairwise fetchLe := by
    refine List.pairwise_cons.mpr ⟨?_, List.pairwise_singleton _ _⟩
    intro b hb
    rw [List.mem_singleton] at hb
    subst hb
    rw [fetchLe, fetchKey, fetchKey]
    refine le_of_lt ((Prod.Lex.lt_iff _ _).mpr (Or.inl ?_))
    rw [String.lt_iff_toList_lt]
    decide
  refine generate_config_order_stable 9090 _ _ (List.Perm.refl _) hsorted hsorted ?_
  intro a ha b hb hab
  rcases List.mem_cons.mp ha with h | h
  · rcases List.mem_cons.mp hb with h2 | h2
    · rw [h, h2]
    · rw [List.mem_singleton] at h2
      subst h; subst h2
      simp at hab
  · rcases List.mem_cons.mp hb with h2 | h2
    · rw [List.mem_singleton] at h
      subst h; subst h2
      simp at hab
    · rw [List.mem_singleton] at h h2
      rw [h, h2]

/-! #### C9 -/

/-- C9 counterexample: `"http://h:0/x"` parses with hostname `h` and the
explicit port `0`, but Python's `if port:` treats `0` as falsy, so the
resolver returns the scheme default `h:80` instead of using the explicit
port — refuting "returns host:port using the explicit port when
present". -/
theorem extract_target_port_zero_counterexample :
    (urlparse "http://h:0/x").hostname = some "h" ∧
    (urlparse "http://h:0/x").port = .ok (some 0) ∧
    extract_target_from_url "http://h:0/x" = some "h:80" ∧
    extract_target_from_url "http://h:0/x" ≠ some "h:0" :=
  ⟨rfl, rfl, rfl, by decide⟩

/-- C9 amended: `resolve(url)` returns `host:port` using the explicit
port when it is present and nonzero; an explicit port `0` is treated as
absent (Python truthiness) and falls through, with the other no-port
cases, to the scheme defaults — 443 for `https`, 80 for `http`, and the
bare parsed hostname (possibly Python `None`) for any other scheme; for
every input whose port component fails to parse, the raw input string is
returned unchanged rather than failing.  The spec's two examples close
the statement. -/
theorem extract_target_cases (url : String) :
    ((urlparse url).port = .error () → extract_target_from_url url = some url) ∧
    (∀ p : Nat, (urlparse url).port = .ok (some p) → p ≠ 0 →
        extract_target_from_url url =
          some (pyStr (urlparse url).hostname ++ ":" ++ toString p)) ∧
    (((urlparse url).port = .ok none ∨ (urlparse url).port = .ok (some 0)) →
      ((urlparse url).scheme = "https" →
          extract_target_from_url url = some (pyStr (urlparse url).hostname ++ ":443")) ∧
      ((urlparse url).scheme ≠ "https" → (urlparse url).scheme = "http" →
          extract_target_from_url url = some (pyStr (urlparse url).hostname ++ ":80")) ∧
      ((urlparse url).scheme ≠ "https" → (urlparse url).scheme ≠ "http" →
          extract_target_from_url url = (urlparse url).hostname)) ∧
    extract_target_from_url "https://abc.com/metrics" = some "abc.com:443" ∧
    extract_target_from_url "http://xyz.com:9000/x" = some "xyz.com:9000" := by
  refine ⟨fun herr => ?_, fun p hp hp0 => ?_,
    fun hp => ⟨fun hs => ?_, fun hs1 hs2 => ?_, fun hs1 hs2 => ?_⟩, by decide, by decide⟩
  · simp only [extract_target_from_url]
    rw [herr]
  · simp only [extract_target_from_url]
    rw [hp]
    simp [hp0]
  · rcases hp with hp | hp <;>
      (simp only [extract_target_from_url]; rw [hp]; simp [hs])
  · rcases hp with hp | hp <;>
      (simp only [extract_target_from_url]; rw [hp]; simp [hs1, hs2])
  · rcases hp with hp | hp <;>
      (simp only [extract_target_from_url]; rw [hp]; simp [hs1, hs2])

/-- Witness for C9's amended theorem: the explicit nonzero port case at
the spec's own example. -/
theorem extract_target_cases_witness :
    extract_target_from_url "http://xyz.com:9000/x" = some "xyz.com:9000" := by
  have h := (extract_target_cases "http://xyz.com:9000/x").2.1 9000 rfl (by decide)
  exact h.trans (by decide)

end PromApp
